import Mathlib

/-
Verification of the backend-access and cache layer of the
RKSIPlanshetkaMobile schedule client.

The development shallowly embeds the relevant TypeScript code:
  * lib/backend.ts      : group/teacher/cabinet sorting, BackendError,
                          ensureSuccess, normalizeAxiosError, the getX
                          fetch-sort-persist-or-fall-back-to-cache getters;
  * app/(tabs)/index.tsx: schedule-day filtering and per-target cache,
                          per-couple normalization, grouping and display
                          sorting, the notifications cache, and the local
                          subscription-add handler.

JS strings are Lean String values; machine numbers are Nat/Int (ℚ for the
one fractional sort key 3.5 = 7/2); JSON values are a small inductive;
exceptions are Except; AsyncStorage is explicit state passing.  Locale
collation (String.prototype.localeCompare) is kept abstract: the functions
that call it take the comparison as a parameter.
-/

namespace Planshetka

/-- Models String.prototype.trim: strip leading and trailing whitespace. -/
def jsTrim (s : String) : String :=
  String.mk (((s.data.dropWhile Char.isWhitespace).reverse.dropWhile Char.isWhitespace).reverse)

/-- Accumulator loop for digitRuns: acc holds the current digit run, reversed. -/
def digitRunsAux : List Char → List Char → List (List Char)
  | [], acc => if acc = [] then [] else [acc.reverse]
  | c :: cs, acc =>
    if c.isDigit then digitRunsAux cs (c :: acc)
    else if acc = [] then digitRunsAux cs [] else acc.reverse :: digitRunsAux cs []

/-- Maximal runs of decimal digits in a character list, in order: the matches
of the JS global regex for one-or-more digits, as used by
value.match in extractGroupParts (backend.ts). -/
def digitRuns (l : List Char) : List (List Char) := digitRunsAux l []

/-- Decimal value of a digit run (JS Number applied to a digit-only string);
48 is the code point of the zero digit. -/
def natOfDigits (l : List Char) : Nat :=
  l.foldl (fun n c => 10 * n + (c.toNat - 48)) 0

/-- Models value.replace of all digit runs by the empty string (backend.ts
extractGroupParts): deleting every maximal digit run deletes exactly the
digit characters. -/
def removeDigits (s : String) : String :=
  String.mk (s.data.filter (fun c => !c.isDigit))

/-- Insert x into l, before the first element y with le x y. -/
def insertSorted (le : α → α → Bool) (x : α) : List α → List α
  | [] => [x]
  | y :: ys => if le x y then x :: y :: ys else y :: insertSorted le x ys

/-- Models ECMAScript Array.prototype.sort with a comparator: a stable
comparison sort.  le a b stands for comparator(a, b) being non-positive. -/
def jsSort (le : α → α → Bool) (l : List α) : List α :=
  l.foldr (insertSorted le) []

/-- Result of extractGroupParts (backend.ts): the name with all digit runs
removed and trimmed, and the embedded integers in order. -/
structure GroupParts where
  letters : String
  numbers : List Nat
deriving Repr, DecidableEq

/-- backend.ts extractGroupParts. -/
def extractGroupParts (value : String) : GroupParts :=
  { letters := jsTrim (removeDigits value)
  , numbers := (digitRuns value.data).map natOfDigits }

/-- The embedded-integer loop of compareGroupNames (backend.ts): walk the two
integer lists in position order; none means the loop fell through to the
final tie-break (both lists exhausted together). -/
def compareNumberLists : List Nat → List Nat → Option Int
  | [], [] => none
  | [], _ :: _ => some (-1)
  | _ :: _, [] => some 1
  | a :: as, b :: bs =>
    if a = b then compareNumberLists as bs else some ((a : Int) - (b : Int))

/-- backend.ts compareGroupNames.  cmpBase models localeCompare with
base sensitivity in the ru-RU locale (applied to the letters parts);
cmpNumeric models the numeric localeCompare used as the final tie-break
on the whole names. -/
def compareGroupNames (cmpBase cmpNumeric : String → String → Int) (a b : String) : Int :=
  let aParts := extractGroupParts a
  let bParts := extractGroupParts b
  let letterDiff := cmpBase aParts.letters bParts.letters
  if letterDiff ≠ 0 then letterDiff
  else
    match compareNumberLists aParts.numbers bParts.numbers with
    | some d => d
    | none => cmpNumeric a b

/-- backend.ts sortGroups. -/
def sortGroups (cmpBase cmpNumeric : String → String → Int) (groups : List String) : List String :=
  jsSort (fun a b => decide (compareGroupNames cmpBase cmpNumeric a b ≤ 0)) groups

/-- backend.ts sortNames: plain locale-aware comparison, kept abstract. -/
def sortNames (cmp : String → String → Int) (names : List String) : List String :=
  jsSort (fun a b => decide (cmp a b ≤ 0)) names

/-- backend.ts sortCabinets: numeric locale-aware comparison, kept abstract. -/
def sortCabinets (cmpNumeric : String → String → Int) (cabinets : List String) : List String :=
  jsSort (fun a b => decide (cmpNumeric a b ≤ 0)) cabinets

/-- A JSON value, the shape of HTTP response bodies.  JS undefined is
conflated with null: extractErrorMessage treats both as falsy. -/
inductive Json where
  | null
  | str (s : String)
  | num (n : Int)
  | bool (b : Bool)
  | arr (elems : List Json)
  | obj (fields : List (String × Json))
deriving Repr

/-- backend.ts BackendError (name field of the Error superclass omitted). -/
structure BackendError where
  message : String
  status : Nat
  payload : Option Json
deriving Repr

/-- backend.ts isSuccessful. -/
def isSuccessful (status : Nat) : Bool := 200 ≤ status && status < 300

/-- Field lookup on a JSON object (JS object keys are unique). -/
def lookupField (fields : List (String × Json)) (key : String) : Option Json :=
  (fields.find? (fun p => decide (p.1 = key))).map (·.2)

/-- JS falsiness of a JSON value, for the early-return payload check in
extractErrorMessage (backend.ts).  Objects and arrays are always truthy. -/
def jsonFalsy : Json → Bool
  | .null => true
  | .str s => decide (s = "")
  | .num n => decide (n = 0)
  | .bool b => !b
  | .arr _ => false
  | .obj _ => false

/-- backend.ts extractErrorMessage.  The typeof-object branch covers both
objects and arrays in JS; an array has neither a message field nor an
errors field, so it falls through to none exactly as the catch-all here. -/
def extractErrorMessage (payload : Json) : Option String :=
  if jsonFalsy payload then none
  else
    match payload with
    | .str s => some s
    | .obj fields =>
      match lookupField fields "message" with
      | some (.str m) => some m
      | _ =>
        match lookupField fields "errors" with
        | some (.arr (first :: _)) =>
          match first with
          | .str e => some e
          | _ => none
        | _ => none
    | _ => none

/-- The BackendError thrown by ensureSuccess for a non-2xx response. -/
def httpErrorOf (status : Nat) (data : Json) : BackendError :=
  { message := (extractErrorMessage data).getD ("Backend responded with status " ++ toString status)
  , status := status
  , payload := some data }

/-- backend.ts ensureSuccess: return the body of a 2xx response, otherwise
throw a BackendError built from the status and body. -/
def ensureSuccess (status : Nat) (data : Json) : Except BackendError Json :=
  if isSuccessful status then .ok data else .error (httpErrorOf status data)

/-- The response attached to an axios error. -/
structure AxiosResponse where
  status : Nat
  data : Json
deriving Repr

/-- An axios transport error: optional HTTP response, optional message. -/
structure AxiosError where
  response : Option AxiosResponse
  message : Option String
deriving Repr

/-- A JS value reaching a catch block in backend.ts: an axios error, an
already-constructed BackendError, or any other thrown value. -/
inductive ThrownValue where
  | axios (e : AxiosError)
  | backendErr (e : BackendError)
  | other (tag : Nat)
deriving Repr

/-- Models the isAxiosError guard. -/
def isAxiosError : ThrownValue → Bool
  | .axios _ => true
  | _ => false

/-- error.response?.status ?? 0 in normalizeAxiosError. -/
def axiosStatus (e : AxiosError) : Nat :=
  (e.response.map (·.status)).getD 0

/-- error.response?.data in normalizeAxiosError (none models undefined). -/
def axiosPayload (e : AxiosError) : Option Json :=
  e.response.map (·.data)

/-- The message chain of normalizeAxiosError: extractErrorMessage(payload),
else error.message, else the fixed fallback.  extractErrorMessage of an
undefined payload is undefined (the falsy early return). -/
def axiosMessage (e : AxiosError) : String :=
  match (axiosPayload e).bind extractErrorMessage with
  | some m => m
  | none => e.message.getD "Unexpected backend error"

/-- backend.ts normalizeAxiosError: an axios error becomes a BackendError
(status 0 when no response was attached); everything else is rethrown
unchanged. -/
def normalizeAxiosError : ThrownValue → ThrownValue
  | .axios e =>
    .backendErr { message := axiosMessage e, status := axiosStatus e, payload := axiosPayload e }
  | v => v

/-- Outcome of one HTTP GET for a directory list endpoint, as seen by
fetchGroups / fetchTeachers / fetchCabinets (they differ only in the URL).
Since the shared http client validates every status, a delivered response
never rejects: rejections are transport failures or foreign throws. -/
inductive FetchOutcome where
  | success (body : List String)
  | httpFailure (status : Nat) (body : Json)
  | noResponse (message : Option String)
  | foreign (tag : Nat)

/-- The try/catch pipeline of fetchGroups (and the other two list fetchers):
ensureSuccess on a delivered response, normalizeAxiosError in the catch.
A 2xx response is decoded as the string list it is typed as; a non-2xx
response makes ensureSuccess throw httpErrorOf, which the catch rethrows
unchanged (it is not an axios error). -/
def fetchListResult : FetchOutcome → Except ThrownValue (List String)
  | .success body => .ok body
  | .httpFailure status body => .error (normalizeAxiosError (.backendErr (httpErrorOf status body)))
  | .noResponse message => .error (normalizeAxiosError (.axios { response := none, message := message }))
  | .foreign tag => .error (normalizeAxiosError (.other tag))

/-- A raw AsyncStorage value under one of the directory cache keys: either a
JSON string that parses back to a string list, or one whose JSON.parse
fails (read as a cache miss by getCachedX). -/
inductive StoredList where
  | parsed (items : List String)
  | corrupt
deriving Repr, DecidableEq

/-- The three directory cache keys of AsyncStorage. -/
structure DirectoryStore where
  groups : Option StoredList
  teachers : Option StoredList
  cabinets : Option StoredList
deriving Repr, DecidableEq

/-- A store with no cached entries. -/
def emptyStore : DirectoryStore := { groups := none, teachers := none, cabinets := none }

/-- backend.ts getCachedGroups: none on a missing entry, none on a parse
failure, otherwise the parsed list re-sorted. -/
def getCachedGroups (cmpBase cmpNumeric : String → String → Int) (st : DirectoryStore) :
    Option (List String) :=
  match st.groups with
  | some (.parsed items) => some (sortGroups cmpBase cmpNumeric items)
  | _ => none

/-- backend.ts getCachedTeachers. -/
def getCachedTeachers (cmp : String → String → Int) (st : DirectoryStore) :
    Option (List String) :=
  match st.teachers with
  | some (.parsed items) => some (sortNames cmp items)
  | _ => none

/-- backend.ts getCachedCabinets. -/
def getCachedCabinets (cmpNumeric : String → String → Int) (st : DirectoryStore) :
    Option (List String) :=
  match st.cabinets with
  | some (.parsed items) => some (sortCabinets cmpNumeric items)
  | _ => none

/-- backend.ts getGroups: fetch, sort, persist and return; on any failure
fall back to the cached list, and propagate the original error only when
the cache misses. -/
def getGroups (cmpBase cmpNumeric : String → String → Int) (outcome : FetchOutcome)
    (st : DirectoryStore) : Except ThrownValue (List String) × DirectoryStore :=
  match fetchListResult outcome with
  | .ok body =>
    let groups := sortGroups cmpBase cmpNumeric body
    (.ok groups, { st with groups := some (.parsed groups) })
  | .error e =>
    match getCachedGroups cmpBase cmpNumeric st with
    | some cached => (.ok cached, st)
    | none => (.error e, st)

/-- backend.ts getTeachers. -/
def getTeachers (cmp : String → String → Int) (outcome : FetchOutcome)
    (st : DirectoryStore) : Except ThrownValue (List String) × DirectoryStore :=
  match fetchListResult outcome with
  | .ok body =>
    let teachers := sortNames cmp body
    (.ok teachers, { st with teachers := some (.parsed teachers) })
  | .error e =>
    match getCachedTeachers cmp st with
    | some cached => (.ok cached, st)
    | none => (.error e, st)

/-- backend.ts getCabinets. -/
def getCabinets (cmpNumeric : String → String → Int) (outcome : FetchOutcome)
    (st : DirectoryStore) : Except ThrownValue (List String) × DirectoryStore :=
  match fetchListResult outcome with
  | .ok body =>
    let cabinets := sortCabinets cmpNumeric body
    (.ok cabinets, { st with cabinets := some (.parsed cabinets) })
  | .error e =>
    match getCachedCabinets cmpNumeric st with
    | some cached => (.ok cached, st)
    | none => (.error e, st)

/-- A lesson slot number: a parsed integer or the raw slot label (the
number field of the Lesson type in index.tsx is number-or-string). -/
inductive NumOrStr where
  | num (n : Nat)
  | str (s : String)
deriving Repr, DecidableEq

/-- The time object of a backend couple. -/
structure CoupleTime where
  start : String
  «end» : String
deriving Repr, DecidableEq

/-- A raw couple as delivered by the couples endpoint (BackendCouple in
backend.ts).  Fields are optional to model null and undefined, which the
normalization guards against with optional chaining and nullish defaults. -/
structure BackendCouple where
  couple : Option String
  time : Option CoupleTime
  lesson : Option String
  cabinet : Option String
  teacher : Option String
  group : Option String
  combined : Option String
deriving Repr, DecidableEq

/-- A normalized lesson (the Lesson type of index.tsx, with the fields the
normalization always fills). -/
structure Lesson where
  id : String
  startTime : String
  endTime : String
  title : String
  teacher : String
  room : String
  group : String
  number : NumOrStr
  combined : Option String
deriving Repr, DecidableEq

/-- First maximal digit run of a string: coupleRaw.match of one-or-more
digits in loadSchedule (a non-global match returns the first run). -/
def firstDigitRun (s : String) : Option (List Char) :=
  (digitRuns s.data).head?

/-- JS or-with-default on strings: x falsy (empty) gives the default. -/
def jsOrDefault (x d : String) : String := if x = "" then d else x

/-- Per-couple normalization inside loadSchedule (index.tsx): derive the
slot number, trim and default the cabinet, force the class-hour title when
the trimmed cabinet is the class-hour marker, default the other fields. -/
def normalizeCouple (dateKey : String) (index : Nat) (couple : BackendCouple) : Lesson :=
  let coupleRaw := jsTrim (couple.couple.getD "")
  let pairNumber : NumOrStr :=
    match firstDigitRun coupleRaw with
    | some run => .num (natOfDigits run)
    | none => if coupleRaw = "" then .num (index + 1) else .str coupleRaw
  let cabinetRaw := (couple.cabinet.map jsTrim).getD ""
  let normalizedCabinet := if cabinetRaw = "К" then "К" else cabinetRaw
  let normalizedTitle :=
    if normalizedCabinet = "К" then "Классный час"
    else jsOrDefault ((couple.lesson.map jsTrim).getD "") "—"
  let coupleIdSuffix := if coupleRaw = "" then "slot-" ++ toString index else coupleRaw
  { id := dateKey ++ "-" ++ coupleIdSuffix ++ "-" ++ toString index
  , startTime := (couple.time.map (·.start)).getD ""
  , endTime := (couple.time.map (·.«end»)).getD ""
  , title := normalizedTitle
  , teacher := couple.teacher.getD ""
  , room := normalizedCabinet
  , group := couple.group.getD ""
  , number := pairNumber
  , combined := couple.combined }

/-- One day of a normalized schedule (ScheduleDay in index.tsx). -/
structure ScheduleDay where
  date : String
  fromType : Int
  corpus : Int
  couples : List Lesson
deriving Repr, DecidableEq

/-- index.tsx getDateValue, parametrized by the Date parser: an unparseable
date (NaN time) collapses to 0. -/
def getDateValue (parseDate : String → Option Int) (value : String) : Int :=
  match parseDate value with
  | some time => time
  | none => 0

/-- index.tsx filterFutureScheduleDays: keep a day exactly when its date
value is 0 (unparseable) or at or after local midnight today. -/
def filterFutureScheduleDays (parseDate : String → Option Int) (todayStart : Int)
    (days : List ScheduleDay) : List ScheduleDay :=
  days.filter fun day =>
    let dayTime := getDateValue parseDate day.date
    if dayTime = 0 then true else decide (todayStart ≤ dayTime)

/-- The schedule cache object: a key-value record from target keys to day
lists, modelled as an association list read through its first binding. -/
abbrev ScheduleCacheStore := List (String × List ScheduleDay)

/-- Read a key of the schedule cache record. -/
def storeGet (cache : ScheduleCacheStore) (key : String) : Option (List ScheduleDay) :=
  (cache.find? (fun entry => decide (entry.1 = key))).map (·.2)

/-- Assign a key of the schedule cache record. -/
def storeSet (cache : ScheduleCacheStore) (key : String) (days : List ScheduleDay) :
    ScheduleCacheStore :=
  (key, days) :: cache.filter (fun entry => !decide (entry.1 = key))

/-- Delete a key of the schedule cache record. -/
def storeDel (cache : ScheduleCacheStore) (key : String) : ScheduleCacheStore :=
  cache.filter (fun entry => !decide (entry.1 = key))

/-- index.tsx persistScheduleForTarget: store the future-filtered days under
the target key, deleting the key when nothing is left. -/
def persistScheduleForTarget (parseDate : String → Option Int) (todayStart : Int)
    (cache : ScheduleCacheStore) (targetKey : String) (days : List ScheduleDay) :
    ScheduleCacheStore :=
  let filteredDays := filterFutureScheduleDays parseDate todayStart days
  if filteredDays.length > 0 then storeSet cache targetKey filteredDays
  else storeDel cache targetKey

/-- index.tsx getCachedScheduleForTarget: return the future-filtered stored
days; when the filter dropped anything, rewrite the entry (or delete it if
nothing is left). -/
def getCachedScheduleForTarget (parseDate : String → Option Int) (todayStart : Int)
    (cache : ScheduleCacheStore) (targetKey : String) :
    List ScheduleDay × ScheduleCacheStore :=
  match storeGet cache targetKey with
  | none => ([], cache)
  | some storedDays =>
    let filtered := filterFutureScheduleDays parseDate todayStart storedDays
    if filtered.length ≠ storedDays.length then
      (filtered,
       if filtered.length > 0 then storeSet cache targetKey filtered
       else storeDel cache targetKey)
    else (filtered, cache)

/-- A display card: a lesson together with its merged variants
(LessonCard in index.tsx). -/
structure LessonCard where
  lesson : Lesson
  groupedLessons : List Lesson
deriving Repr, DecidableEq

/-- Template rendering of the number field into the grouping key. -/
def numberKey : NumOrStr → String
  | .num n => toString n
  | .str s => s

/-- Models String.prototype.toLowerCase on the alphabets this app uses:
ASCII letters and Russian Cyrillic (code points 1040-1071, plus 1025 for
the letter Io); other characters are unchanged. -/
def jsToLowerChar (c : Char) : Char :=
  if 65 ≤ c.toNat && c.toNat ≤ 90 then Char.ofNat (c.toNat + 32)
  else if 1040 ≤ c.toNat && c.toNat ≤ 1071 then Char.ofNat (c.toNat + 32)
  else if c.toNat = 1025 then Char.ofNat 1105
  else c

/-- Lowercasing of a whole string. -/
def jsToLower (s : String) : String := String.mk (s.data.map jsToLowerChar)

/-- The grouping key of currentScheduleList: trimmed rendered number,
a double-underscore separator, and the trimmed lowercased title. -/
def groupKeyOf (l : Lesson) : String :=
  jsTrim (numberKey l.number) ++ "__" ++ jsToLower (jsTrim l.title)

/-- JS falsiness of an optional string (null, undefined or empty). -/
def optStrFalsy : Option String → Bool
  | none => true
  | some s => decide (s = "")

/-- When merging a lesson into an existing card, adopt its combined field
if the card has none yet (the mutation inside currentScheduleList). -/
def mergeCombined (card : Lesson) (l : Lesson) : Lesson :=
  if optStrFalsy card.combined && !optStrFalsy l.combined then
    { card with combined := l.combined }
  else card

/-- Fold step of the grouping pass: append the lesson to the card with the
same key, or open a new card at the end. -/
def addLessonToCards : List LessonCard → Lesson → List LessonCard
  | [], l => [{ lesson := l, groupedLessons := [l] }]
  | c :: cs, l =>
    if groupKeyOf c.lesson = groupKeyOf l then
      { lesson := mergeCombined c.lesson l, groupedLessons := c.groupedLessons ++ [l] } :: cs
    else c :: addLessonToCards cs l

/-- The grouping pass of currentScheduleList (index.tsx): couples sharing a
(number, title) key merge into one card, in first-occurrence order. -/
def groupCouples (couples : List Lesson) : List LessonCard :=
  couples.foldl addLessonToCards []

/-- The class-hour test of getSortOrder (index.tsx). -/
def isClassHour (c : LessonCard) : Bool :=
  decide (c.lesson.number = .str "К") || decide (c.lesson.room = "К") ||
    decide (c.lesson.title = "Классный час")

/-- index.tsx getSortOrder: 3.5 (written 7/2) for a class-hour card, the
numeric slot number otherwise, 999 for a non-numeric label. -/
def getSortOrder (c : LessonCard) : ℚ :=
  if isClassHour c then 7 / 2
  else
    match c.lesson.number with
    | .num n => (n : ℚ)
    | .str s =>
      if s ≠ "" ∧ s.data.all Char.isDigit then (natOfDigits s.data : ℚ) else 999

/-- The display sort of currentScheduleList: ascending getSortOrder. -/
def sortLessonCards (cards : List LessonCard) : List LessonCard :=
  jsSort (fun a b => decide (getSortOrder a ≤ getSortOrder b)) cards

/-- index.tsx currentScheduleList for one day: group, then sort. -/
def currentScheduleList (couples : List Lesson) : List LessonCard :=
  sortLessonCards (groupCouples couples)

/-- A notification as delivered by the backend (NotificationResponse). -/
structure NotificationResponse where
  id : Int
  name : String
  couple : String
  time_start : String
  time_end : String
  lesson : String
  cabinet : String
  teacher : String
  group : String
  combined : String
  created_at : Option String
deriving Repr, DecidableEq

/-- A cached notification: the payload plus the internal expiry stamp
(CachedNotification in index.tsx). -/
structure CachedNotification where
  payload : NotificationResponse
  cachedAt : Int
deriving Repr, DecidableEq

/-- index.tsx ONE_WEEK_MS. -/
def ONE_WEEK_MS : Int := 7 * 24 * 60 * 60 * 1000

/-- index.tsx writeNotificationsCache: stamp every notification with the
current time and overwrite the whole cache. -/
def writeNotificationsCache (now : Int) (notifications : List NotificationResponse) :
    Option (List CachedNotification) :=
  some (notifications.map fun n => { payload := n, cachedAt := now })

/-- index.tsx readNotificationsCache: drop entries at least a week old,
rewrite the cache when anything was dropped, and return the survivors
stripped of the cachedAt stamp.  A missing entry reads as the empty list. -/
def readNotificationsCache (now : Int) (stored : Option (List CachedNotification)) :
    List NotificationResponse × Option (List CachedNotification) :=
  match stored with
  | none => ([], none)
  | some cached =>
    let validNotifications := cached.filter fun item => decide (now - item.cachedAt < ONE_WEEK_MS)
    let rewritten :=
      if validNotifications.length ≠ cached.length then
        writeNotificationsCache now (validNotifications.map (·.payload))
      else some cached
    (validNotifications.map (·.payload), rewritten)

/-- The three-way search tab selector of index.tsx. -/
inductive SearchTab where
  | group
  | cabinet
  | teacher
deriving Repr, DecidableEq

/-- Template rendering of a SearchTab value into the subscription id. -/
def searchTabKey : SearchTab → String
  | .group => "group"
  | .cabinet => "cabinet"
  | .teacher => "teacher"

/-- A local subscription entry (SubscriptionItem in index.tsx); entries
hydrated from the backend carry no type. -/
structure SubscriptionItem where
  id : String
  title : String
  type' : Option SearchTab
deriving Repr, DecidableEq

/-- The duplicate test of handleAddSubscription: same title, and when the
existing entry carries a type, the same type (an untyped entry matches
any type). -/
def subscriptionMatches (s : SubscriptionItem) (ty : SearchTab) (title : String) : Bool :=
  decide (s.title = title) &&
    (match s.type' with
     | some t => decide (t = ty)
     | none => true)

/-- index.tsx handleAddSubscription: the functional update of the local
subscriptions state, and whether the entry was added (a backend subscribe
call is only attempted when it was). -/
def handleAddSubscription (subscriptionCooldown : Nat) (prev : List SubscriptionItem)
    (ty : SearchTab) (title : String) : List SubscriptionItem × Bool :=
  if subscriptionCooldown > 0 then (prev, false)
  else if 10 ≤ prev.length then (prev, false)
  else if prev.any (fun s => subscriptionMatches s ty title) then (prev, false)
  else (prev ++ [{ id := searchTabKey ty ++ "-" ++ title, title := title, type' := some ty }], true)

/-- Modelled from the spec: the body itself when it is a string (restricted
here to a non-empty one, the amendment the code forces). -/
def nonEmptyStringBody : Json → Option String
  | .str s => if s = "" then none else some s
  | _ => none

/-- Modelled from the spec: the message field of the body when that is a
string. -/
def jsonMessageField : Json → Option String
  | .obj fields =>
    match lookupField fields "message" with
    | some (.str m) => some m
    | _ => none
  | _ => none

/-- Modelled from the spec: the first element of the errors array of the
body when that is a string. -/
def jsonErrorsFirst : Json → Option String
  | .obj fields =>
    match lookupField fields "errors" with
    | some (.arr (first :: _)) =>
      match first with
      | .str e => some e
      | _ => none
    | _ => none
  | _ => none

/-- Modelled from the spec (amended C3 claim): the error message priority
order demanded of ensureSuccess for a non-2xx response: a non-empty string
body, else a string message field, else a string first element of an
errors array, else the generic fallback. -/
def claimedErrorMessage (status : Nat) (body : Json) : String :=
  match nonEmptyStringBody body with
  | some s => s
  | none =>
    match jsonMessageField body with
    | some m => m
    | none =>
      match jsonErrorsFirst body with
      | some e => e
      | none => "Backend responded with status " ++ toString status

/-- A concrete notification used to instantiate cache theorems. -/
def sampleNotification : NotificationResponse :=
  { id := 1, name := "couple_update", couple := "1", time_start := "8:00"
  , time_end := "9:30", lesson := "Математика", cabinet := "101"
  , teacher := "Иванов И.И.", group := "ИС-21", combined := "", created_at := none }

theorem perm_insertSorted (le : α → α → Bool) (x : α) (l : List α) :
    (insertSorted le x l).Perm (x :: l) := by
  induction l with
  | nil => simp [insertSorted]
  | cons y ys ih =>
    simp only [insertSorted]
    split
    · exact List.Perm.refl _
    · exact ((ih.cons y).trans (List.Perm.swap x y ys))

theorem perm_jsSort (le : α → α → Bool) (l : List α) : (jsSort le l).Perm l := by
  induction l with
  | nil => simp [jsSort]
  | cons x xs ih =>
    simp only [jsSort, List.foldr_cons]
    exact (perm_insertSorted le x _).trans (ih.cons x)

theorem pairwise_insertSorted (le : α → α → Bool)
    (htrans : ∀ a b c, le a b = true → le b c = true → le a c = true)
    (htotal : ∀ a b, le a b = true ∨ le b a = true)
    (x : α) (l : List α) (h : l.Pairwise (fun a b => le a b = true)) :
    (insertSorted le x l).Pairwise (fun a b => le a b = true) := by
  induction l with
  | nil => simp [insertSorted]
  | cons y ys ih =>
    simp only [insertSorted]
    rcases List.pairwise_cons.mp h with ⟨hy, hys⟩
    split
    · rename_i hxy
      refine List.pairwise_cons.mpr ⟨?_, h⟩
      intro b hb
      rcases List.mem_cons.mp hb with hb | hb
      · exact hb ▸ hxy
      · exact htrans x y b hxy (hy b hb)
    · rename_i hxy
      refine List.pairwise_cons.mpr ⟨?_, ih hys⟩
      intro b hb
      have hb' : b ∈ x :: ys := (perm_insertSorted le x ys).mem_iff.mp hb
      rcases List.mem_cons.mp hb' with hb' | hb'
      · have hyx : le y x = true := (htotal x y).resolve_left hxy
        rw [hb']
        exact hyx
      · exact hy b hb'

theorem pairwise_jsSort (le : α → α → Bool)
    (htrans : ∀ a b c, le a b = true → le b c = true → le a c = true)
    (htotal : ∀ a b, le a b = true ∨ le b a = true)
    (l : List α) : (jsSort le l).Pairwise (fun a b => le a b = true) := by
  induction l with
  | nil => simp [jsSort]
  | cons x xs ih =>
    simp only [jsSort, List.foldr_cons]
    exact pairwise_insertSorted le htrans htotal x _ ih

theorem compareNumberLists_self (l : List Nat) : compareNumberLists l l = none := by
  induction l with
  | nil => rfl
  | cons a as ih => simp [compareNumberLists, ih]

theorem compareNumberLists_missing (pre : List Nat) (b : Nat) (bs : List Nat) :
    compareNumberLists pre (pre ++ b :: bs) = some (-1) := by
  induction pre with
  | nil => rfl
  | cons a as ih => simp [compareNumberLists, ih]

theorem compareNumberLists_first_diff (pre : List Nat) (a : Nat) (as : List Nat)
    (b : Nat) (bs : List Nat) (h : a ≠ b) :
    compareNumberLists (pre ++ a :: as) (pre ++ b :: bs) = some ((a : Int) - (b : Int)) := by
  induction pre with
  | nil => simp [compareNumberLists, h]
  | cons p ps ih => simp [compareNumberLists, ih]

theorem digitRunsAux_acc_nonempty (cs : List Char) : ∀ acc : List Char, acc ≠ [] →
    digitRunsAux cs acc =
      (acc.reverse ++ cs.takeWhile Char.isDigit) ::
        digitRunsAux (cs.dropWhile Char.isDigit) [] := by
  induction cs with
  | nil =>
    intro acc hacc
    simp [digitRunsAux, hacc]
  | cons c cs ih =>
    intro acc hacc
    by_cases hc : c.isDigit = true
    · have := ih (c :: acc) (by simp)
      simp [digitRunsAux, hc, this, List.takeWhile_cons, List.dropWhile_cons]
    · simp [digitRunsAux, hc, hacc, List.takeWhile_cons, List.dropWhile_cons]

theorem digitRuns_cons_digit (c : Char) (cs : List Char) (h : c.isDigit = true) :
    digitRuns (c :: cs) =
      (c :: cs.takeWhile Char.isDigit) :: digitRuns (cs.dropWhile Char.isDigit) := by
  have := digitRunsAux_acc_nonempty cs [c] (by simp)
  simp only [digitRuns, digitRunsAux, h, if_pos]
  simpa using this

theorem digitRuns_no_digit (l : List Char) (h : l.all (fun c => !c.isDigit) = true) :
    digitRuns l = [] := by
  induction l with
  | nil => rfl
  | cons c cs ih =>
    simp only [List.all_cons, Bool.and_eq_true, Bool.not_eq_true'] at h
    simp only [digitRuns, digitRunsAux, h.1]
    exact ih (by simp [List.all_eq_true] at h ⊢; exact h.2)

theorem storeGet_storeSet_self (cache : ScheduleCacheStore) (key : String)
    (days : List ScheduleDay) : storeGet (storeSet cache key days) key = some days := by
  simp [storeGet, storeSet, List.find?]

theorem storeGet_storeDel_self (cache : ScheduleCacheStore) (key : String) :
    storeGet (storeDel cache key) key = none := by
  simp only [storeGet, storeDel, Option.map_eq_none']
  refine List.find?_eq_none.mpr ?_
  intro entry hmem
  have := (List.mem_filter.mp hmem).2
  simpa using this

theorem subscriptionMatches_iff (s : SubscriptionItem) (ty : SearchTab) (title : String) :
    subscriptionMatches s ty title = true ↔
      s.title = title ∧ (s.type' = none ∨ s.type' = some ty) := by
  cases h : s.type' <;> simp [subscriptionMatches, h]

/-- C10: handleAddSubscription adds a new entry exactly when no cooldown is
running, the current list has fewer than 10 entries and no entry has the
same title (with the same type, when the existing entry carries one);
otherwise the list is unchanged and no backend subscribe call is
attempted, so a local add can neither grow the list beyond 10 entries nor
introduce a duplicate. -/
theorem C10_handleAddSubscription_bounded_duplicate_free
    (cooldown : Nat) (prev : List SubscriptionItem) (ty : SearchTab) (title : String) :
    ((handleAddSubscription cooldown prev ty title).2 = true ↔
      cooldown = 0 ∧ prev.length < 10 ∧
        ∀ s ∈ prev, ¬(s.title = title ∧ (s.type' = none ∨ s.type' = some ty))) ∧
    ((handleAddSubscription cooldown prev ty title).2 = false →
      (handleAddSubscription cooldown prev ty title).1 = prev) ∧
    ((handleAddSubscription cooldown prev ty title).2 = true →
      (handleAddSubscription cooldown prev ty title).1 =
        prev ++ [{ id := searchTabKey ty ++ "-" ++ title, title := title, type' := some ty }]) ∧
    (handleAddSubscription cooldown prev ty title).1.length ≤ max prev.length 10 ∧
    ((handleAddSubscription cooldown prev ty title).2 = true →
      ∀ s ∈ prev, subscriptionMatches s ty title = false) := by
  have hany : prev.any (fun s => subscriptionMatches s ty title) = false ↔
      ∀ s ∈ prev, ¬(s.title = title ∧ (s.type' = none ∨ s.type' = some ty)) := by
    rw [← Bool.not_eq_true, List.any_eq_true]
    simp only [subscriptionMatches_iff]
    push_neg
    exact Iff.rfl
  by_cases h1 : cooldown > 0
  · have hc : handleAddSubscription cooldown prev ty title = (prev, false) := by
      simp [handleAddSubscription, h1]
    rw [hc]
    exact ⟨⟨fun hfalse => absurd hfalse (by simp), fun hcond => absurd hcond.1 (by omega)⟩,
      fun _ => rfl, fun hfalse => absurd hfalse (by simp), le_max_left _ _,
      fun hfalse => absurd hfalse (by simp)⟩
  · by_cases h2 : 10 ≤ prev.length
    · have hc : handleAddSubscription cooldown prev ty title = (prev, false) := by
        simp [handleAddSubscription, h1, h2]
      rw [hc]
      exact ⟨⟨fun hfalse => absurd hfalse (by simp), fun hcond => absurd hcond.2.1 (by omega)⟩,
        fun _ => rfl, fun hfalse => absurd hfalse (by simp), le_max_left _ _,
        fun hfalse => absurd hfalse (by simp)⟩
    · by_cases h3 : prev.any (fun s => subscriptionMatches s ty title) = true
      · have hc : handleAddSubscription cooldown prev ty title = (prev, false) := by
          simp [handleAddSubscription, h1, h2, h3]
        rw [hc]
        have hnot : ¬ ∀ s ∈ prev, ¬(s.title = title ∧ (s.type' = none ∨ s.type' = some ty)) := by
          intro hall
          have := hany.mpr hall
          rw [h3] at this
          cases this
        exact ⟨⟨fun hfalse => absurd hfalse (by simp), fun hcond => absurd hcond.2.2 hnot⟩,
          fun _ => rfl, fun hfalse => absurd hfalse (by simp), le_max_left _ _,
          fun hfalse => absurd hfalse (by simp)⟩
      · have h3f : prev.any (fun s => subscriptionMatches s ty title) = false := by
          simpa using h3
        have hc : handleAddSubscription cooldown prev ty title =
            (prev ++ [{ id := searchTabKey ty ++ "-" ++ title, title := title
                      , type' := some ty }], true) := by
          simp [handleAddSubscription, h1, h2, h3f]
        rw [hc]
        refine ⟨⟨fun _ => ⟨by omega, by omega, hany.mp h3f⟩, fun _ => rfl⟩,
          fun hfalse => absurd hfalse (by simp), fun _ => rfl, ?_,
          fun _ s hs => by simpa using List.any_eq_false.mp h3f s hs⟩
        simp only [List.length_append, List.length_cons, List.length_nil]
        exact le_trans (by omega) (le_max_right _ _)

/-- Witness for C10: with no cooldown and an empty list, the entry is added
and the duplicate guard holds vacuously. -/
theorem C10_handleAddSubscription_witness :
    (handleAddSubscription 0 [] .group "ИС-21").1 =
      [{ id := "group-ИС-21", title := "ИС-21", type' := some .group }] :=
  (C10_handleAddSubscription_bounded_duplicate_free 0 [] .group "ИС-21").2.2.1
    (by decide)

/-- C9: reading the notifications cache drops exactly the entries at least
seven days old, returns the survivors stripped of the cachedAt stamp, and
rewrites the stored list with exactly the survivors (freshly stamped)
precisely when at least one entry was dropped; an entry cached eight days
ago is excluded from the result and removed from storage. -/
theorem C9_notifications_cache_expiry (now : Int) (cached : List CachedNotification) :
    (readNotificationsCache now (some cached) =
      ((cached.filter fun item => decide (now - item.cachedAt < ONE_WEEK_MS)).map (·.payload),
       if (cached.filter fun item => decide (now - item.cachedAt < ONE_WEEK_MS)).length ≠
            cached.length
       then some ((cached.filter fun item => decide (now - item.cachedAt < ONE_WEEK_MS)).map
              fun item => { payload := item.payload, cachedAt := now })
       else some cached)) ∧
    (∀ item ∈ cached, ONE_WEEK_MS ≤ now - item.cachedAt →
      item ∉ cached.filter fun it => decide (now - it.cachedAt < ONE_WEEK_MS)) ∧
    (∀ n : NotificationResponse,
      readNotificationsCache now
          (some [{ payload := n, cachedAt := now - 8 * 24 * 60 * 60 * 1000 }]) =
        ([], some [])) := by
  refine ⟨?_, ?_, ?_⟩
  · simp only [readNotificationsCache, writeNotificationsCache, List.map_map]
    rfl
  · intro item _ hold hmem
    have := (List.mem_filter.mp hmem).2
    have := of_decide_eq_true this
    omega
  · intro n
    have hdec : ∀ item : CachedNotification, item.cachedAt = now - 8 * 24 * 60 * 60 * 1000 →
        decide (now - item.cachedAt < ONE_WEEK_MS) = false := by
      intro item hitem
      rw [decide_eq_false_iff_not, hitem]
      simp only [ONE_WEEK_MS]
      omega
    simp only [readNotificationsCache, writeNotificationsCache]
    rw [List.filter_cons, hdec _ rfl]
    simp

/-- Witness for C9: a single entry cached eight days before the read is
dropped and storage is rewritten without it. -/
theorem C9_notifications_cache_expiry_witness :
    readNotificationsCache 0
        (some [{ payload := sampleNotification, cachedAt := 0 - 8 * 24 * 60 * 60 * 1000 }]) =
      ([], some []) :=
  (C9_notifications_cache_expiry 0 []).2.2 sampleNotification

/-- C8: writing a notification list and reading it back before seven days
have elapsed returns the very same list (hence the same set, order
intact), stripped of the internal cachedAt stamp that the write added,
and leaves the stored cache unchanged. -/
theorem C8_notifications_cache_roundtrip
    (l : List NotificationResponse) (writeTime readTime : Int)
    (h : readTime - writeTime < ONE_WEEK_MS) :
    readNotificationsCache readTime (writeNotificationsCache writeTime l) =
      (l, writeNotificationsCache writeTime l) := by
  simp only [writeNotificationsCache, readNotificationsCache]
  have hfilter :
      (l.map fun n => ({ payload := n, cachedAt := writeTime } : CachedNotification)).filter
        (fun item => decide (readTime - item.cachedAt < ONE_WEEK_MS)) =
      l.map fun n => ({ payload := n, cachedAt := writeTime } : CachedNotification) := by
    apply List.filter_eq_self.mpr
    intro a ha
    rcases List.mem_map.mp ha with ⟨n, _, rfl⟩
    simpa using h
  rw [hfilter]
  have hcomp :
      ((fun x : CachedNotification => x.payload) ∘
        fun n => ({ payload := n, cachedAt := writeTime } : CachedNotification)) = id := rfl
  simp [List.map_map, hcomp]

/-- Witness for C8: a one-element list written at time 0 and read at time 5
comes back unchanged. -/
theorem C8_notifications_cache_roundtrip_witness :
    readNotificationsCache 5 (writeNotificationsCache 0 [sampleNotification]) =
      ([sampleNotification], writeNotificationsCache 0 [sampleNotification]) :=
  C8_notifications_cache_roundtrip [sampleNotification] 0 5 (by decide)

/-- C4: normalizeAxiosError maps an axios error without an attached response
to a BackendError with status 0 (the network-failure sentinel), maps one
with an attached response to a BackendError with that response status and
payload, and rethrows any value that is not an axios error unchanged;
given that genuine server HTTP statuses are at least 100, the produced
status is 0 exactly in the no-response case. -/
theorem C4_normalizeAxiosError_classification :
    (∀ e : AxiosError, e.response = none →
      normalizeAxiosError (.axios e) =
        .backendErr { message := e.message.getD "Unexpected backend error"
                    , status := 0, payload := none }) ∧
    (∀ (e : AxiosError) (r : AxiosResponse), e.response = some r →
      normalizeAxiosError (.axios e) =
        .backendErr { message := match extractErrorMessage r.data with
                                 | some m => m
                                 | none => e.message.getD "Unexpected backend error"
                    , status := r.status, payload := some r.data }) ∧
    (∀ v : ThrownValue, isAxiosError v = false → normalizeAxiosError v = v) ∧
    (∀ e : AxiosError, (∀ r, e.response = some r → 100 ≤ r.status) →
      (axiosStatus e = 0 ↔ e.response = none)) ∧
    (∀ e : AxiosError, normalizeAxiosError (.axios e) =
      .backendErr { message := axiosMessage e, status := axiosStatus e
                  , payload := axiosPayload e }) := by
  refine ⟨?_, ?_, ?_, ?_, ?_⟩
  · intro e h
    simp [normalizeAxiosError, axiosMessage, axiosStatus, axiosPayload, h]
  · intro e r h
    simp [normalizeAxiosError, axiosMessage, axiosStatus, axiosPayload, h]
  · intro v hv
    cases v with
    | axios e => simp [isAxiosError] at hv
    | backendErr e => rfl
    | other tag => rfl
  · intro e hvalid
    cases h : e.response with
    | none => simp [axiosStatus, h]
    | some r =>
      simp only [axiosStatus, h, Option.map_some', Option.getD_some]
      have := hvalid r h
      constructor
      · intro h0
        omega
      · intro hc
        cases hc
  · intro e
    rfl

/-- Witness for C4: a connection-refused axios error (no response) becomes a
BackendError with status 0 and the transport message. -/
theorem C4_normalizeAxiosError_witness :
    normalizeAxiosError (.axios { response := none, message := some "Network Error" }) =
      .backendErr { message := "Network Error", status := 0, payload := none } :=
  C4_normalizeAxiosError_classification.1
    { response := none, message := some "Network Error" } rfl

theorem extractErrorMessage_obj (fields : List (String × Json)) :
    extractErrorMessage (.obj fields) =
      match jsonMessageField (.obj fields) with
      | some m => some m
      | none => jsonErrorsFirst (.obj fields) := by
  rcases hm : lookupField fields "message" with _ | jm
  · simp [extractErrorMessage, jsonMessageField, jsonErrorsFirst, jsonFalsy, hm]
  · cases jm <;>
      simp [extractErrorMessage, jsonMessageField, jsonErrorsFirst, jsonFalsy, hm]

theorem extractErrorMessage_getD (status : Nat) (body : Json) :
    (extractErrorMessage body).getD ("Backend responded with status " ++ toString status) =
      claimedErrorMessage status body := by
  cases body with
  | null => rfl
  | str s =>
    by_cases h : s = "" <;>
      simp [extractErrorMessage, claimedErrorMessage, nonEmptyStringBody, jsonMessageField,
        jsonErrorsFirst, jsonFalsy, h]
  | num n =>
    by_cases h : n = 0 <;>
      simp [extractErrorMessage, claimedErrorMessage, nonEmptyStringBody, jsonMessageField,
        jsonErrorsFirst, jsonFalsy, h]
  | bool b => cases b <;> rfl
  | arr elems => rfl
  | obj fields =>
    rw [extractErrorMessage_obj]
    rcases hjm : jsonMessageField (.obj fields) with _ | m
    · rcases hje : jsonErrorsFirst (.obj fields) with _ | e <;>
        simp [claimedErrorMessage, nonEmptyStringBody, hjm, hje]
    · simp [claimedErrorMessage, nonEmptyStringBody, hjm]

/-- C3 counterexample: a 500 response whose body is the empty string has a
string body, yet ensureSuccess uses the generic fallback message, not the
body, because the body is falsy; the claimed priority order fails here. -/
theorem C3_counterexample_empty_string_body :
    ensureSuccess 500 (.str "") =
      .error { message := "Backend responded with status 500", status := 500
             , payload := some (.str "") } ∧
    "Backend responded with status 500" ≠ "" := by
  exact ⟨rfl, by decide⟩

/-- C3 (amended): ensureSuccess returns the body exactly when the status is
in [200,300); otherwise it throws a BackendError carrying the status and
body, whose message is chosen in priority order: the body itself if it is
a non-empty string, else the body message field if that is a string, else
the first element of the body errors array if that is a string, else the
generic fallback naming the status. -/
theorem C3_ensureSuccess_amended (status : Nat) (body : Json) :
    (isSuccessful status = true → ensureSuccess status body = .ok body) ∧
    (isSuccessful status = false →
      ensureSuccess status body =
        .error { message := claimedErrorMessage status body
               , status := status
               , payload := some body }) ∧
    (isSuccessful status = true ↔ 200 ≤ status ∧ status < 300) := by
  refine ⟨?_, ?_, ?_⟩
  · intro h
    simp [ensureSuccess, h]
  · intro h
    simp [ensureSuccess, h, httpErrorOf, extractErrorMessage_getD]
  · simp [isSuccessful]

/-- Witness for the amended C3: a 500 response with a string message field
produces a BackendError carrying that message, the status and the body. -/
theorem C3_ensureSuccess_amended_witness :
    ensureSuccess 500 (.obj [("message", .str "Not found")]) =
      .error { message := "Not found", status := 500
             , payload := some (.obj [("message", .str "Not found")]) } := by
  have h := (C3_ensureSuccess_amended 500 (.obj [("message", .str "Not found")])).2.1 rfl
  rw [h]
  simp [claimedErrorMessage, nonEmptyStringBody, jsonMessageField, lookupField, List.find?]

theorem keep_of_mem_filterFutureScheduleDays (parseDate : String → Option Int)
    (todayStart : Int) (days : List ScheduleDay) (day : ScheduleDay)
    (h : day ∈ filterFutureScheduleDays parseDate todayStart days) :
    getDateValue parseDate day.date = 0 ∨ todayStart ≤ getDateValue parseDate day.date := by
  have hp := (List.mem_filter.mp h).2
  by_cases h0 : getDateValue parseDate day.date = 0
  · exact Or.inl h0
  · right
    simp only [h0, if_false] at hp
    exact of_decide_eq_true hp

/-- C5: after persistScheduleForTarget, and likewise after a
getCachedScheduleForTarget read, the stored cache entry for the key holds
exactly the days whose date value is 0 (unparseable) or at least local
midnight today, so no stored day is strictly before today; when the
filter leaves nothing, persist removes the key, and a read removes the
key whenever a non-empty stored entry filters to nothing. -/
theorem C5_schedule_cache_future_only (parseDate : String → Option Int) (todayStart : Int) :
    (∀ cache targetKey days,
      storeGet (persistScheduleForTarget parseDate todayStart cache targetKey days) targetKey =
        (if (filterFutureScheduleDays parseDate todayStart days).length > 0
         then some (filterFutureScheduleDays parseDate todayStart days) else none)) ∧
    (∀ cache targetKey days day,
      day ∈ (storeGet (persistScheduleForTarget parseDate todayStart cache targetKey days)
               targetKey).getD [] →
      getDateValue parseDate day.date = 0 ∨ todayStart ≤ getDateValue parseDate day.date) ∧
    (∀ days day, day ∈ days →
      (day ∈ filterFutureScheduleDays parseDate todayStart days ↔
        (getDateValue parseDate day.date = 0 ∨ todayStart ≤ getDateValue parseDate day.date))) ∧
    (∀ cache targetKey day,
      day ∈ (storeGet (getCachedScheduleForTarget parseDate todayStart cache targetKey).2
               targetKey).getD [] →
      getDateValue parseDate day.date = 0 ∨ todayStart ≤ getDateValue parseDate day.date) ∧
    (∀ cache targetKey storedDays, storeGet cache targetKey = some storedDays →
      storedDays ≠ [] →
      filterFutureScheduleDays parseDate todayStart storedDays = [] →
      storeGet (getCachedScheduleForTarget parseDate todayStart cache targetKey).2 targetKey =
        none) ∧
    (∀ cache targetKey,
      (getCachedScheduleForTarget parseDate todayStart cache targetKey).1 =
        filterFutureScheduleDays parseDate todayStart ((storeGet cache targetKey).getD [])) := by
  have hpersist : ∀ cache targetKey days,
      storeGet (persistScheduleForTarget parseDate todayStart cache targetKey days) targetKey =
        (if (filterFutureScheduleDays parseDate todayStart days).length > 0
         then some (filterFutureScheduleDays parseDate todayStart days) else none) := by
    intro cache targetKey days
    by_cases h : (filterFutureScheduleDays parseDate todayStart days).length > 0
    · simp [persistScheduleForTarget, h, storeGet_storeSet_self]
    · simp [persistScheduleForTarget, h, storeGet_storeDel_self]
  refine ⟨hpersist, ?_, ?_, ?_, ?_, ?_⟩
  · intro cache targetKey days day hmem
    rw [hpersist] at hmem
    by_cases h : (filterFutureScheduleDays parseDate todayStart days).length > 0
    · rw [if_pos h] at hmem
      exact keep_of_mem_filterFutureScheduleDays parseDate todayStart days day hmem
    · rw [if_neg h] at hmem
      cases hmem
  · intro days day hday
    constructor
    · exact keep_of_mem_filterFutureScheduleDays parseDate todayStart days day
    · intro hkeep
      refine List.mem_filter.mpr ⟨hday, ?_⟩
      by_cases h0 : getDateValue parseDate day.date = 0
      · simp [h0]
      · rcases hkeep with hkeep | hkeep
        · exact absurd hkeep h0
        · simp [h0, hkeep]
  · intro cache targetKey day hmem
    rcases hstored : storeGet cache targetKey with _ | storedDays
    · simp only [getCachedScheduleForTarget, hstored] at hmem
      simp at hmem
    · simp only [getCachedScheduleForTarget, hstored] at hmem
      by_cases hlen : (filterFutureScheduleDays parseDate todayStart storedDays).length ≠
          storedDays.length
      · rw [if_pos hlen] at hmem
        by_cases hpos : (filterFutureScheduleDays parseDate todayStart storedDays).length > 0
        · rw [if_pos hpos, storeGet_storeSet_self] at hmem
          exact keep_of_mem_filterFutureScheduleDays parseDate todayStart storedDays day hmem
        · rw [if_neg hpos, storeGet_storeDel_self] at hmem
          cases hmem
      · rw [if_neg hlen, hstored] at hmem
        have hsub : List.Sublist (filterFutureScheduleDays parseDate todayStart storedDays)
            storedDays := by
          simp only [filterFutureScheduleDays]
          exact List.filter_sublist _
        have heq : filterFutureScheduleDays parseDate todayStart storedDays = storedDays :=
          hsub.eq_of_length (not_ne_iff.mp hlen)
        rw [← heq] at hmem
        exact keep_of_mem_filterFutureScheduleDays parseDate todayStart storedDays day
          (by simpa using hmem)
  · intro cache targetKey storedDays hstored hne hfilt
    have hlen : (filterFutureScheduleDays parseDate todayStart storedDays).length ≠
        storedDays.length := by
      rw [hfilt]
      simp only [List.length_nil]
      intro hzero
      exact hne (List.eq_nil_of_length_eq_zero hzero.symm)
    simp only [getCachedScheduleForTarget, hstored]
    rw [if_pos hlen, hfilt]
    simp [storeGet_storeDel_self]
  · intro cache targetKey
    rcases hstored : storeGet cache targetKey with _ | storedDays
    · simp [getCachedScheduleForTarget, hstored, filterFutureScheduleDays]
    · simp only [getCachedScheduleForTarget, hstored, Option.getD_some]
      by_cases hlen : (filterFutureScheduleDays parseDate todayStart storedDays).length ≠
          storedDays.length
      · rw [if_pos hlen]
      · rw [if_neg hlen]

/-- Witness for C5: a single day dated before today is dropped and the key
is removed, while a day dated after today is kept. -/
theorem C5_schedule_cache_future_only_witness :
    (storeGet (persistScheduleForTarget (fun d => if d = "2020-01-01" then some 1 else some 200)
        100 [] "group:ИС-21"
        [{ date := "2020-01-01", fromType := 1, corpus := 1, couples := [] }]) "group:ИС-21" =
      none) ∧
    ({ date := "2099-01-01", fromType := 0, corpus := 2, couples := [] } : ScheduleDay) ∈
      filterFutureScheduleDays (fun d => if d = "2020-01-01" then some 1 else some 200) 100
        [{ date := "2099-01-01", fromType := 0, corpus := 2, couples := [] }] := by
  constructor
  · have h := (C5_schedule_cache_future_only
        (fun d => if d = "2020-01-01" then some 1 else some 200) 100).1 [] "group:ИС-21"
        [{ date := "2020-01-01", fromType := 1, corpus := 1, couples := [] }]
    rw [h]
    decide
  · exact ((C5_schedule_cache_future_only
        (fun d => if d = "2020-01-01" then some 1 else some 200) 100).2.2.1
        [{ date := "2099-01-01", fromType := 0, corpus := 2, couples := [] }]
        { date := "2099-01-01", fromType := 0, corpus := 2, couples := [] }
        (by decide)).mpr (by decide)

/-- C6: a fetched couple whose trimmed cabinet equals the class-hour marker
gets the fixed class-hour title regardless of the backend lesson field;
in the display list a class-hour card carries sort key 7/2 (3.5),
strictly between 3 and 4, a numbered card carries its own number, and the
display list arranges the grouped cards in ascending sort key whatever
the raw backend order was, so the class-hour card lands between the
cards numbered 3 and 4. -/
theorem C6_class_hour_title_and_position :
    (∀ dateKey index couple, (couple.cabinet.map jsTrim).getD "" = "К" →
      (normalizeCouple dateKey index couple).title = "Классный час") ∧
    (∀ c : LessonCard, isClassHour c = true → getSortOrder c = 7 / 2) ∧
    ((3 : ℚ) < 7 / 2 ∧ (7 : ℚ) / 2 < 4) ∧
    (∀ (c : LessonCard) (n : Nat), isClassHour c = false → c.lesson.number = .num n →
      getSortOrder c = n) ∧
    (∀ couples, (currentScheduleList couples).Perm (groupCouples couples)) ∧
    (∀ couples, (currentScheduleList couples).Pairwise
      (fun a b => getSortOrder a ≤ getSortOrder b)) := by
  refine ⟨?_, ?_, ⟨by norm_num, by norm_num⟩, ?_, ?_, ?_⟩
  · intro dateKey index couple h
    simp [normalizeCouple, h]
  · intro c h
    simp [getSortOrder, h]
  · intro c n h hn
    simp [getSortOrder, h, hn]
  · intro couples
    simpa [currentScheduleList, sortLessonCards] using
      perm_jsSort (fun a b => decide (getSortOrder a ≤ getSortOrder b)) (groupCouples couples)
  · intro couples
    have h := pairwise_jsSort (fun a b => decide (getSortOrder a ≤ getSortOrder b))
      (fun a b c hab hbc =>
        decide_eq_true (le_trans (of_decide_eq_true hab) (of_decide_eq_true hbc)))
      (fun a b => by
        rcases le_total (getSortOrder a) (getSortOrder b) with h | h
        · exact Or.inl (decide_eq_true h)
        · exact Or.inr (decide_eq_true h))
      (groupCouples couples)
    have h' := h.imp (fun hab => of_decide_eq_true hab)
    simpa [currentScheduleList, sortLessonCards] using h'

/-- Witness for C6: a couple whose cabinet trims to the marker is titled as
the class hour even though the backend lesson says otherwise. -/
theorem C6_class_hour_title_witness :
    (normalizeCouple "2025-09-01" 0
      { couple := some "К", time := none, lesson := some "Алгебра"
      , cabinet := some " К ", teacher := some "Иванов И.И.", group := some "ИС-21"
      , combined := none }).title = "Классный час" :=
  C6_class_hour_title_and_position.1 "2025-09-01" 0 _ (by decide)

/-- C7 counterexample: a couple with an empty raw slot label contains no
integer, yet normalization does not keep the raw label as the identifier:
it falls back to the 1-based position index. -/
theorem C7_counterexample_empty_label :
    (normalizeCouple "2025-09-01" 0
      { couple := some "", time := none, lesson := some "Физика"
      , cabinet := some "101", teacher := none, group := none, combined := none }).number =
        .num 1 ∧
    NumOrStr.num 1 ≠ .str "" := by
  exact ⟨rfl, by decide⟩

/-- C7 (amended): the slot number parses the leading digit run when the
trimmed raw label starts with a digit; when no digit is present at all
the non-empty raw label itself is kept as the identifier, while an empty
label falls back to the 1-based slot position. -/
theorem C7_slot_number_derivation (dateKey : String) (index : Nat) (couple : BackendCouple) :
    (∀ c cs, (jsTrim (couple.couple.getD "")).data = c :: cs → c.isDigit = true →
      (normalizeCouple dateKey index couple).number =
        .num (natOfDigits ((jsTrim (couple.couple.getD "")).data.takeWhile Char.isDigit))) ∧
    ((jsTrim (couple.couple.getD "")).data.all (fun c => !c.isDigit) = true →
      jsTrim (couple.couple.getD "") ≠ "" →
      (normalizeCouple dateKey index couple).number = .str (jsTrim (couple.couple.getD ""))) ∧
    (jsTrim (couple.couple.getD "") = "" →
      (normalizeCouple dateKey index couple).number = .num (index + 1)) := by
  refine ⟨?_, ?_, ?_⟩
  · intro c cs hdata hc
    simp [normalizeCouple, firstDigitRun, hdata, digitRuns_cons_digit c cs hc,
      List.takeWhile_cons, hc]
  · intro hall hne
    simp [normalizeCouple, firstDigitRun, digitRuns_no_digit _ hall, hne]
  · intro h
    have hdata : (jsTrim (couple.couple.getD "")).data = [] := by
      rw [h]
    simp [normalizeCouple, firstDigitRun, hdata, h, digitRuns, digitRunsAux]

/-- Witness for C7: a label with a leading digit parses it, a digit-free
label is kept as the identifier, and an empty label falls back to the
position index. -/
theorem C7_slot_number_derivation_witness :
    (normalizeCouple "d" 0
      { couple := some "3б", time := none, lesson := none, cabinet := none
      , teacher := none, group := none, combined := none }).number = .num 3 ∧
    (normalizeCouple "d" 1
      { couple := some "К", time := none, lesson := none, cabinet := none
      , teacher := none, group := none, combined := none }).number = .str "К" ∧
    (normalizeCouple "d" 4
      { couple := none, time := none, lesson := none, cabinet := none
      , teacher := none, group := none, combined := none }).number = .num 5 := by
  refine ⟨?_, ?_, ?_⟩
  · exact ((C7_slot_number_derivation "d" 0
      { couple := some "3б", time := none, lesson := none, cabinet := none
      , teacher := none, group := none, combined := none }).1 '3' ['б']
        (by decide) (by decide)).trans (by decide)
  · exact ((C7_slot_number_derivation "d" 1
      { couple := some "К", time := none, lesson := none, cabinet := none
      , teacher := none, group := none, combined := none }).2.1
        (by decide) (by decide)).trans (by decide)
  · exact ((C7_slot_number_derivation "d" 4
      { couple := none, time := none, lesson := none, cabinet := none
      , teacher := none, group := none, combined := none }).2.2 (by decide)).trans (by decide)

/-- C2: when the fetch of a directory list fails for any reason, the getter
(getGroups, getTeachers, getCabinets) returns the cached list when one is
present and parses, without throwing and without touching the store, and
propagates the original error exactly when the cache misses (absent entry
or parse failure); a connection-refused fetch (no response) with no prior
cache makes getGroups throw a BackendError with status 0. -/
theorem C2_directory_getters_fallback
    (cmpBase cmpNumeric cmpName : String → String → Int) :
    (∀ outcome e st items, fetchListResult outcome = .error e →
      st.groups = some (.parsed items) →
      getGroups cmpBase cmpNumeric outcome st =
        (.ok (sortGroups cmpBase cmpNumeric items), st)) ∧
    (∀ outcome e st, fetchListResult outcome = .error e →
      st.groups = none ∨ st.groups = some .corrupt →
      getGroups cmpBase cmpNumeric outcome st = (.error e, st)) ∧
    (∀ outcome e st items, fetchListResult outcome = .error e →
      st.teachers = some (.parsed items) →
      getTeachers cmpName outcome st = (.ok (sortNames cmpName items), st)) ∧
    (∀ outcome e st, fetchListResult outcome = .error e →
      st.teachers = none ∨ st.teachers = some .corrupt →
      getTeachers cmpName outcome st = (.error e, st)) ∧
    (∀ outcome e st items, fetchListResult outcome = .error e →
      st.cabinets = some (.parsed items) →
      getCabinets cmpNumeric outcome st = (.ok (sortCabinets cmpNumeric items), st)) ∧
    (∀ outcome e st, fetchListResult outcome = .error e →
      st.cabinets = none ∨ st.cabinets = some .corrupt →
      getCabinets cmpNumeric outcome st = (.error e, st)) ∧
    (∀ msg st, st.groups = none →
      getGroups cmpBase cmpNumeric (.noResponse msg) st =
        (.error (.backendErr { message := msg.getD "Unexpected backend error"
                             , status := 0, payload := none }), st)) := by
  refine ⟨?_, ?_, ?_, ?_, ?_, ?_, ?_⟩
  · intro outcome e st items hfetch hcache
    simp [getGroups, hfetch, getCachedGroups, hcache]
  · intro outcome e st hfetch hmiss
    rcases hmiss with hmiss | hmiss <;> simp [getGroups, hfetch, getCachedGroups, hmiss]
  · intro outcome e st items hfetch hcache
    simp [getTeachers, hfetch, getCachedTeachers, hcache]
  · intro outcome e st hfetch hmiss
    rcases hmiss with hmiss | hmiss <;> simp [getTeachers, hfetch, getCachedTeachers, hmiss]
  · intro outcome e st items hfetch hcache
    simp [getCabinets, hfetch, getCachedCabinets, hcache]
  · intro outcome e st hfetch hmiss
    rcases hmiss with hmiss | hmiss <;> simp [getCabinets, hfetch, getCachedCabinets, hmiss]
  · intro msg st hmiss
    simp [getGroups, fetchListResult, normalizeAxiosError, axiosMessage, axiosStatus,
      axiosPayload, getCachedGroups, hmiss]

/-- Witness for C2: a connection-refused getGroups call against an empty
store throws a BackendError with status 0 and the fallback message. -/
theorem C2_directory_getters_fallback_witness :
    getGroups (fun _ _ => 0) (fun _ _ => 0) (.noResponse none) emptyStore =
      (.error (.backendErr { message := "Unexpected backend error", status := 0
                           , payload := none }), emptyStore) :=
  (C2_directory_getters_fallback (fun _ _ => 0) (fun _ _ => 0)
    (fun _ _ => 0)).2.2.2.2.2.2 none emptyStore rfl

/-- C1: compareGroupNames first compares the digit-stripped trimmed letters
with the (abstract, reflexive) base locale comparison; on a tie it walks
the embedded integer lists in position order, a missing integer sorting
before a present one and the numerically smaller first; on a full tie it
falls back to the numeric locale comparison of the whole names.
sortGroups permutes its input, and is ordered by this comparator whenever
the comparator is consistent; in particular getGroups on the backend
reply of ИС-21 then ИС-3 returns and caches ИС-3 before ИС-21. -/
theorem C1_sortGroups_orders_by_compareGroupNames
    (cmpBase cmpNumeric : String → String → Int)
    (hrefl : ∀ s, cmpBase s s = 0) :
    (∀ a b, cmpBase (extractGroupParts a).letters (extractGroupParts b).letters ≠ 0 →
      compareGroupNames cmpBase cmpNumeric a b =
        cmpBase (extractGroupParts a).letters (extractGroupParts b).letters) ∧
    (∀ a b d, cmpBase (extractGroupParts a).letters (extractGroupParts b).letters = 0 →
      compareNumberLists (extractGroupParts a).numbers (extractGroupParts b).numbers = some d →
      compareGroupNames cmpBase cmpNumeric a b = d) ∧
    (∀ a b, cmpBase (extractGroupParts a).letters (extractGroupParts b).letters = 0 →
      compareNumberLists (extractGroupParts a).numbers (extractGroupParts b).numbers = none →
      compareGroupNames cmpBase cmpNumeric a b = cmpNumeric a b) ∧
    (∀ l : List Nat, compareNumberLists l l = none) ∧
    (∀ (pre : List Nat) (b : Nat) (bs : List Nat),
      compareNumberLists pre (pre ++ b :: bs) = some (-1)) ∧
    (∀ (pre : List Nat) (m : Nat) (as : List Nat) (n : Nat) (bs : List Nat), m < n →
      compareNumberLists (pre ++ m :: as) (pre ++ n :: bs) = some ((m : Int) - n) ∧
        (m : Int) - n < 0) ∧
    (∀ groups, (sortGroups cmpBase cmpNumeric groups).Perm groups) ∧
    ((∀ a b c, compareGroupNames cmpBase cmpNumeric a b ≤ 0 →
        compareGroupNames cmpBase cmpNumeric b c ≤ 0 →
        compareGroupNames cmpBase cmpNumeric a c ≤ 0) →
     (∀ a b, compareGroupNames cmpBase cmpNumeric a b ≤ 0 ∨
        compareGroupNames cmpBase cmpNumeric b a ≤ 0) →
     ∀ groups, (sortGroups cmpBase cmpNumeric groups).Pairwise
        (fun a b => compareGroupNames cmpBase cmpNumeric a b ≤ 0)) ∧
    (getGroups cmpBase cmpNumeric (.success ["ИС-21", "ИС-3"]) emptyStore =
      (.ok ["ИС-3", "ИС-21"],
       { groups := some (.parsed ["ИС-3", "ИС-21"]), teachers := none, cabinets := none })) := by
  refine ⟨?_, ?_, ?_, compareNumberLists_self, compareNumberLists_missing, ?_, ?_, ?_, ?_⟩
  · intro a b h
    simp [compareGroupNames, h]
  · intro a b d h0 hsome
    simp [compareGroupNames, h0, hsome]
  · intro a b h0 hnone
    simp [compareGroupNames, h0, hnone]
  · intro pre m as n bs hmn
    refine ⟨compareNumberLists_first_diff pre m as n bs (by omega), by omega⟩
  · intro groups
    simpa [sortGroups] using
      perm_jsSort (fun a b => decide (compareGroupNames cmpBase cmpNumeric a b ≤ 0)) groups
  · intro htrans htotal groups
    have h := pairwise_jsSort (fun a b => decide (compareGroupNames cmpBase cmpNumeric a b ≤ 0))
      (fun a b c hab hbc =>
        decide_eq_true (htrans a b c (of_decide_eq_true hab) (of_decide_eq_true hbc)))
      (fun a b => by
        rcases htotal a b with h | h
        · exact Or.inl (decide_eq_true h)
        · exact Or.inr (decide_eq_true h))
      groups
    have h' := h.imp (fun hab => of_decide_eq_true hab)
    simpa [sortGroups] using h'
  · have e1 : extractGroupParts "ИС-21" = { letters := "ИС-", numbers := [21] } := by decide
    have e2 : extractGroupParts "ИС-3" = { letters := "ИС-", numbers := [3] } := by decide
    have hcmp : compareGroupNames cmpBase cmpNumeric "ИС-21" "ИС-3" = 18 := by
      have h0 : cmpBase "ИС-" "ИС-" = 0 := hrefl "ИС-"
      have hn1 : natOfDigits ['2', '1'] = 21 := by decide
      have hn2 : natOfDigits ['3'] = 3 := by decide
      norm_num [compareGroupNames, e1, e2, h0, compareNumberLists, hn1, hn2]
    have hle : decide (compareGroupNames cmpBase cmpNumeric "ИС-21" "ИС-3" ≤ 0) = false := by
      rw [hcmp]
      decide
    simp [getGroups, fetchListResult, sortGroups, jsSort, insertSorted, hle, emptyStore]

/-- Witness for C1 at concrete locale comparisons: with both comparisons
constantly zero (reflexive), getGroups sorts the backend reply of ИС-21
and ИС-3 into value order and caches it. -/
theorem C1_sortGroups_orders_witness :
    getGroups (fun _ _ => 0) (fun _ _ => 0) (.success ["ИС-21", "ИС-3"]) emptyStore =
      (.ok ["ИС-3", "ИС-21"],
       { groups := some (.parsed ["ИС-3", "ИС-21"]), teachers := none, cabinets := none }) :=
  (C1_sortGroups_orders_by_compareGroupNames (fun _ _ => 0) (fun _ _ => 0)
    (fun _ => rfl)).2.2.2.2.2.2.2.2

end Planshetka
